import Mathlib

/-!
Verification development for the ScaleDegreeRandomizer ear-training drill
(`src/ChordScaleRandomizer.tsx`).

The embedding follows the source component:
* JavaScript numbers holding exact small integers are modelled as `Int`/`Nat`;
  `Math.random()` samples and audio amplitudes are modelled as `ℚ`;
  the irrational frequency/logarithm arithmetic of `frequencyToNote` is
  modelled over `ℝ`.
* The JS `%` operator (remainder with the sign of the dividend) is `Int.tmod`.
* React `useState`/`useRef` cells are fields of explicit state structures, and
  event handlers / effects are step functions on those structures.
* `detectPitch` is a `useCallback` with an empty dependency array: the closure
  is created once, so every React *state* variable it mentions keeps the value
  it had at creation time (the component routes `selectedKey`,
  `currentScaleDegree` and `mode` through `currentStateRef` to work around
  this, but reads `hasFoundCorrect` directly).  `detectPitchStep` therefore
  takes the closure-captured value of `hasFoundCorrect` as an explicit
  parameter, and `detectPitchFrame` instantiates it with the initial value
  `false`, which is what the mounted component actually uses.
-/

namespace ScaleDegreeRandomizer

inductive Direction
  | ABOVE
  | BELOW
  deriving DecidableEq, Repr

inductive Mode
  | major
  | minor
  deriving DecidableEq, Repr

/-- `interface ScaleDegree { degree: number; direction?: Direction }`. -/
structure ScaleDegree where
  degree : Int
  direction : Option Direction
  deriving DecidableEq, Repr

/-- `const KEYS = [...]` (line 11). -/
def KEYS : List String :=
  ["C", "C#/Db", "D", "D#/Eb", "E", "F", "F#/Gb", "G", "G#/Ab", "A", "A#/Bb", "B"]

/-- `const NOTE_NAMES = [...]` (line 26): the twelve pitch-class names in
order, C first (written in two halves). -/
def NOTE_NAMES : List String :=
  ["C", "C#", "D", "D#", "E", "F"] ++ ["F#", "G", "G#", "A", "A#", "B"]

/-- JS `array.findIndex((x) => x === s)` on a string array: index of the first
match, `-1` when absent. -/
def findIndexStr (l : List String) (s : String) : Int :=
  match l.findIdx? (fun x => x == s) with
  | some i => (i : Int)
  | none => -1

def majorIntervals : List Int := [0, 2, 4, 5, 7, 9, 11]

def minorIntervals : List Int := [0, 2, 3, 5, 7, 8, 10]

def intervalsFor : Mode → List Int
  | Mode.major => majorIntervals
  | Mode.minor => minorIntervals

/-- The pitch-class index `(keyIndex + intervals[scaleDegree - 1]) % 12`
computed inside `getExpectedNote` (line 241). -/
def expectedNoteIndex (keyName : String) (scaleDegree : Int) (mode : Mode) : Int :=
  let keyIndex := findIndexStr KEYS keyName
  (keyIndex + (intervalsFor mode).getD (scaleDegree - 1).toNat 0).tmod 12

/-- `getExpectedNote` (lines 231-245): name of the pitch class of the given
scale degree in the given key and mode. -/
def getExpectedNote (keyName : String) (scaleDegree : Int) (mode : Mode) : String :=
  NOTE_NAMES.getD (expectedNoteIndex keyName scaleDegree mode).toNat "?"

def minorDegreeNames : List String := ["1", "2", "♭3", "4", "5", "♭6", "♭7"]

/-- The chromatic-alteration loop of `noteToScaleDegree` in major mode
(lines 270-279): first entry whose interval is one semitone below or above
the probed interval wins. -/
def majorChromaticAlteration (interval : Int) : List (Int × Nat) → String
  | [] => "?"
  | (naturalInterval, degree) :: rest =>
    if interval = (naturalInterval + 1).tmod 12 then "#" ++ toString degree
    else if interval = (naturalInterval - 1 + 12).tmod 12 then "♭" ++ toString degree
    else majorChromaticAlteration interval rest

/-- The chromatic-alteration loop of `noteToScaleDegree` in minor mode
(lines 298-316).  A sharpened already-flat degree drops its flat; the
flattening branch returns nothing for an already-flat degree, so the loop
continues in that case. -/
def minorChromaticAlteration (interval : Int) : List (Int × String) → String
  | [] => "?"
  | (naturalInterval, degreeName) :: rest =>
    if interval = (naturalInterval + 1).tmod 12 then
      if degreeName.startsWith "♭" then degreeName.drop 1 else "#" ++ degreeName
    else if interval = (naturalInterval - 1 + 12).tmod 12 then
      if degreeName.startsWith "♭" then minorChromaticAlteration interval rest
      else "♭" ++ degreeName
    else minorChromaticAlteration interval rest

/-- `noteToScaleDegree` (lines 247-320): display label of a pitch class
relative to a key and mode. -/
def noteToScaleDegree (noteName : String) (keyName : String) (mode : Mode) : String :=
  let noteIndex := findIndexStr NOTE_NAMES noteName
  let keyIndex := findIndexStr KEYS keyName
  if noteIndex = -1 ∨ keyIndex = -1 then "?"
  else
    let interval := (noteIndex - keyIndex + 12).tmod 12
    match mode with
    | Mode.major =>
      match majorIntervals.findIdx? (fun i => i == interval) with
      | some degreeIndex => toString (degreeIndex + 1)
      | none => majorChromaticAlteration interval (majorIntervals.zip [1, 2, 3, 4, 5, 6, 7])
    | Mode.minor =>
      match minorIntervals.findIdx? (fun i => i == interval) with
      | some degreeIndex => minorDegreeNames.getD degreeIndex "?"
      | none =>
        if interval = 11 then "7"
        else minorChromaticAlteration interval (minorIntervals.zip minorDegreeNames)

/-- `frequencyToNote` (lines 455-470): `Math.round(12 * Math.log2(f / 440))`
semitones from A4, wrapped into the 12-name table with the JS remainder and
its negative-result fixup. -/
noncomputable def frequencyToNote (frequency : ℝ) : String :=
  if frequency ≤ 0 then ""
  else
    let semitones : Int := round (12 * Real.logb 2 (frequency / 440))
    let noteIndex : Int := (9 + semitones).tmod 12
    let finalIndex : Int := if noteIndex < 0 then noteIndex + 12 else noteIndex
    NOTE_NAMES.getD finalIndex.toNat "?"

/-- The degree-1 sub-variant draw of `generateNewScaleDegree` (lines 645-653):
`rand < 0.33` plain tonic, `rand < 0.66` tonic-above, else tonic-below. -/
def degreeOneVariant (rand : ℚ) : ScaleDegree :=
  if rand < 0.33 then { degree := 1, direction := none }
  else if rand < 0.66 then { degree := 1, direction := some Direction.ABOVE }
  else { degree := 1, direction := some Direction.BELOW }

/-- One body of the `do`-loop of `generateNewScaleDegree` (lines 642-657):
`r1` is the `Math.random()` sample for the degree, `r2` the sample for the
sub-variant or direction. -/
def drawScaleDegree (r1 r2 : ℚ) : ScaleDegree :=
  let degree : Int := ⌊r1 * 7⌋ + 1
  if degree = 1 then degreeOneVariant r2
  else { degree := degree,
         direction := some (if r2 < 0.5 then Direction.ABOVE else Direction.BELOW) }

/-- The `while` condition of `generateNewScaleDegree` (lines 658-662):
a non-null previous combination with the same degree and same direction. -/
def sameCombination : Option ScaleDegree → ScaleDegree → Bool
  | none, _ => false
  | some last, sd => sd.degree == last.degree && sd.direction == last.direction

/-- `generateNewScaleDegree` (lines 639-665) as a fuel-indexed loop over an
explicit stream of random samples: `stream i` is the pair of `Math.random()`
samples consumed by iteration `i`.  The source loop is an unbounded
`do ... while`; `none` means the loop has not terminated within `fuel`
iterations. -/
def generateNewScaleDegree (last : Option ScaleDegree) (stream : Nat → ℚ × ℚ) :
    Nat → Nat → Option ScaleDegree
  | _, 0 => none
  | i, fuel + 1 =>
    let sd := drawScaleDegree (stream i).1 (stream i).2
    if sameCombination last sd then generateNewScaleDegree last stream (i + 1) fuel
    else some sd

/-- The inner dot product of `detectPitch` (lines 496-499):
`Σ buffer[i] * buffer[i + period]` for `i < bufferLength - period`. -/
def correlationAt (buffer : List ℚ) (period : Nat) : ℚ :=
  ((List.range (buffer.length - period)).map
    (fun i => buffer.getD i 0 * buffer.getD (i + period) 0)).sum

/-- The maximum-tracking loop of `detectPitch` (lines 489-504), started from
`maxCorrelation = 0`, `bestPeriod = 0`; updates only on a strictly larger
correlation. -/
def bestCorrelation (buffer : List ℚ) : List Nat → ℚ × Nat → ℚ × Nat
  | [], acc => acc
  | period :: rest, (maxCorrelation, bestPeriod) =>
    let correlation := correlationAt buffer period
    if maxCorrelation < correlation then bestCorrelation buffer rest (correlation, period)
    else bestCorrelation buffer rest (maxCorrelation, bestPeriod)

/-- The full search of `detectPitch` over the period range
`[floor(sampleRate/800), floor(sampleRate/80))` (lines 492-504). -/
def autocorrelationSearch (buffer : List ℚ) (sampleRate : Nat) : ℚ × Nat :=
  let minPeriod := sampleRate / 800
  let maxPeriod := sampleRate / 80
  bestCorrelation buffer (List.range' minPeriod (maxPeriod - minPeriod)) (0, 0)

/-- The frequency reported by `detectPitch` (lines 506-508):
`sampleRate / bestPeriod` when `maxCorrelation > 0.001 && bestPeriod > 0`,
otherwise no pitch. -/
def detectPitchFrequency (buffer : List ℚ) (sampleRate : Nat) : Option ℚ :=
  let r := autocorrelationSearch buffer sampleRate
  if 0.001 < r.1 ∧ 0 < r.2 then some ((sampleRate : ℚ) / (r.2 : ℚ)) else none

inductive NoteStatus
  | pending
  | correct
  | incorrect
  deriving DecidableEq, Repr

/-- The values `detectPitch` reads through `currentStateRef` (lines 472-478). -/
structure DetectionConfig where
  selectedKey : String
  currentScaleDegree : ScaleDegree
  mode : Mode
  deriving Repr

/-- The mutable cells touched by `detectPitch`: the two tracking refs, the two
session refs, and the `detectedNote` / `noteStatus` / `hasFoundCorrect` React
state. -/
structure DetectionState where
  currentDetectedNote : Option String
  noteDetectionStartTime : Option Int
  hasDetectedFirstNote : Bool
  isFirstScaleDegree : Bool
  hasFoundCorrect : Bool
  everFoundCorrectForCurrentDegree : Bool
  detectedNote : String
  noteStatus : NoteStatus
  deriving DecidableEq, Repr

def DETECTION_DURATION_MS : Int := 150

/-- One run of the note-tracking part of `detectPitch` (lines 510-596), with
the classified pitch (`none` when the correlation gate reported no signal)
supplied as input.  `capturedHasFoundCorrect` is the value of the React state
`hasFoundCorrect` seen by the `useCallback` closure; the guard
`startTime ≠ 0` models the JS truthiness test
`noteDetectionStartTimeRef.current && ...` (line 516). -/
def detectPitchStep (capturedHasFoundCorrect : Bool) (cfg : DetectionConfig)
    (st : DetectionState) (pitch : Option String) (currentTime : Int) : DetectionState :=
  match pitch with
  | some note =>
    if st.currentDetectedNote = some note then
      match st.noteDetectionStartTime with
      | some startTime =>
        if startTime ≠ 0 ∧ currentTime - startTime ≥ DETECTION_DURATION_MS then
          let st1 :=
            if st.hasDetectedFirstNote then st
            else { st with hasDetectedFirstNote := true, isFirstScaleDegree := false }
          let expectedNote := getExpectedNote cfg.selectedKey cfg.currentScaleDegree.degree cfg.mode
          let isCorrect := note == expectedNote
          let st2 := { st1 with detectedNote := noteToScaleDegree note cfg.selectedKey cfg.mode }
          if isCorrect && !capturedHasFoundCorrect then
            { st2 with noteStatus := NoteStatus.correct, hasFoundCorrect := true,
                       everFoundCorrectForCurrentDegree := true }
          else if !capturedHasFoundCorrect then
            { st2 with noteStatus := NoteStatus.incorrect }
          else st2
        else st
      | none => st
    else
      { st with currentDetectedNote := some note, noteDetectionStartTime := some currentTime }
  | none =>
    let st1 :=
      if st.currentDetectedNote.isSome then
        { st with currentDetectedNote := none, noteDetectionStartTime := none }
      else st
    if !capturedHasFoundCorrect then
      { st1 with detectedNote := "", noteStatus := NoteStatus.pending }
    else st1

/-- `detectPitch` as the mounted component runs it: the `useCallback` has an
empty dependency array, so the closure forever sees the initial value `false`
of `hasFoundCorrect`. -/
def detectPitchFrame (cfg : DetectionConfig) (st : DetectionState) (pitch : Option String)
    (currentTime : Int) : DetectionState :=
  detectPitchStep false cfg st pitch currentTime

/-- The variant the surrounding comments describe: the step reading the live
value of `hasFoundCorrect`. -/
def detectPitchFrameLive (cfg : DetectionConfig) (st : DetectionState) (pitch : Option String)
    (currentTime : Int) : DetectionState :=
  detectPitchStep st.hasFoundCorrect cfg st pitch currentTime

def runDetection (cfg : DetectionConfig) : DetectionState → List (Option String × Int) → DetectionState
  | st, [] => st
  | st, (pitch, t) :: frames => runDetection cfg (detectPitchFrame cfg st pitch t) frames

/-- Initial values of the detection cells (lines 88-102). -/
def initialDetectionState : DetectionState :=
  { currentDetectedNote := none
    noteDetectionStartTime := none
    hasDetectedFirstNote := false
    isFirstScaleDegree := true
    hasFoundCorrect := false
    everFoundCorrectForCurrentDegree := false
    detectedNote := ""
    noteStatus := NoteStatus.pending }

/-- The session-level state of the component: the play flag, settings, result
list, current/previous target and per-degree flags. -/
structure SessionState where
  isPlaying : Bool
  isMuted : Bool
  results : List Bool
  currentScaleDegree : ScaleDegree
  lastCombination : Option ScaleDegree
  hasDetectedFirstNote : Bool
  isFirstScaleDegree : Bool
  everFoundCorrectForCurrentDegree : Bool
  hasFoundCorrect : Bool
  detectedNote : String
  noteStatus : NoteStatus
  deriving DecidableEq, Repr

/-- `performRandomize` (lines 670-714) with the freshly drawn target supplied
as a parameter: record the just-finished degree when this is not the first
target and a first note has been confirmed, then install the new target and
reset the per-degree flags. -/
def performRandomize (newScaleDegree : ScaleDegree) (st : SessionState) : SessionState :=
  let st1 :=
    if !st.isFirstScaleDegree && st.hasDetectedFirstNote then
      { st with results := st.results ++ [st.everFoundCorrectForCurrentDegree] }
    else st
  { st1 with
    currentScaleDegree := newScaleDegree
    lastCombination := some newScaleDegree
    detectedNote := ""
    noteStatus := NoteStatus.pending
    hasFoundCorrect := false
    everFoundCorrectForCurrentDegree := false }

/-- The body of the auto-randomization `useEffect` (lines 717-754).  It runs
after every change of `isPlaying`, `interval`, `selectedKey`, `mode`, `volume`
or `isMuted`.  While playing it performs a randomize (and arms the timer);
otherwise it appends the final degree's outcome when a combination exists and
a first note was confirmed, then stops the chord and pitch detection (which
clears `detectedNote` and resets `noteStatus`). -/
def autoRandomizeEffect (drawn : ScaleDegree) (st : SessionState) : SessionState :=
  if st.isPlaying then performRandomize drawn st
  else
    let st1 :=
      if st.lastCombination.isSome && st.hasDetectedFirstNote then
        { st with results := st.results ++ [st.everFoundCorrectForCurrentDegree] }
      else st
    { st1 with detectedNote := "", noteStatus := NoteStatus.pending }

/-- The reset performed by the Start branch of the Play/Stop button handler
(lines 960-970). -/
def resetForStart (st : SessionState) : SessionState :=
  { st with
    results := []
    hasDetectedFirstNote := false
    everFoundCorrectForCurrentDegree := false
    isFirstScaleDegree := true
    hasFoundCorrect := false
    detectedNote := ""
    noteStatus := NoteStatus.pending
    isPlaying := true }

/-- External events of the session state machine.  Each event is one handler
or timer callback followed by the re-run of the auto-randomization effect
whenever one of its dependencies changed.  Freshly drawn targets are supplied
as event parameters. -/
inductive SessionEvent
  | playClick (micOk : Bool) (drawn : ScaleDegree)
  | timerTick (drawn : ScaleDegree)
  | noteConfirmed (isCorrect : Bool)
  | muteToggle (drawn : ScaleDegree)
  deriving Repr

/-- One session step.  The returned `Bool` is true when the step surfaced the
microphone-failure alert (lines 971-977).
`playClick` with `micOk = false` models `getUserMedia` throwing: the handler
alerts and returns without touching any state.
`muteToggle` models the mute button handler (lines 884-887): it flips
`isMuted` and sets `isPlaying` to `false`, after which the effect re-runs
because its dependencies changed.
`noteConfirmed` is the confirmation branch of `detectPitch` restricted to the
session-level cells, with the stale-closure value `false` of
`hasFoundCorrect` (see `detectPitchFrame`). -/
def sessionStep (st : SessionState) : SessionEvent → SessionState × Bool
  | SessionEvent.playClick micOk drawn =>
    if !st.isPlaying then
      if micOk then (autoRandomizeEffect drawn (resetForStart st), false)
      else (st, true)
    else (autoRandomizeEffect drawn { st with isPlaying := false }, false)
  | SessionEvent.timerTick drawn =>
    if st.isPlaying then (performRandomize drawn st, false) else (st, false)
  | SessionEvent.noteConfirmed isCorrect =>
    if st.isPlaying then
      ({ st with
          hasDetectedFirstNote := true
          isFirstScaleDegree := false
          hasFoundCorrect := st.hasFoundCorrect || isCorrect
          everFoundCorrectForCurrentDegree := st.everFoundCorrectForCurrentDegree || isCorrect
          noteStatus := if isCorrect then NoteStatus.correct else NoteStatus.incorrect }, false)
    else (st, false)
  | SessionEvent.muteToggle drawn =>
    (autoRandomizeEffect drawn { st with isPlaying := false, isMuted := !st.isMuted }, false)

def runSession (st : SessionState) : List SessionEvent → SessionState
  | [] => st
  | e :: es => runSession (sessionStep st e).1 es

/-- Initial session state of the mounted component. -/
def initialSessionState : SessionState :=
  { isPlaying := false
    isMuted := false
    results := []
    currentScaleDegree := { degree := 1, direction := none }
    lastCombination := none
    hasDetectedFirstNote := false
    isFirstScaleDegree := true
    everFoundCorrectForCurrentDegree := false
    hasFoundCorrect := false
    detectedNote := ""
    noteStatus := NoteStatus.pending }

/-- `stopChord` (lines 351-361): stops every currently playing oscillator and
clears the list, leaving no oscillator playing. -/
def stopChord (_currentOscillators : List ℚ) : List ℚ :=
  []

/-- The oscillators `playChord` creates (lines 382-451): for each chord tone,
partials at 1x, 2x and 4x its frequency. -/
def chordOscillators (frequencies : List ℚ) : List ℚ :=
  frequencies.flatMap (fun freq => [freq, freq * 2, freq * 4])

/-- The effect of `playChord` (lines 363-452) on the set of playing
oscillators: with no audio context or while muted it returns before doing
anything (line 364); otherwise it first stops every current oscillator and
then starts the new chord's oscillators. -/
def playChord (hasAudioContext : Bool) (isMuted : Bool) (frequencies : List ℚ)
    (currentOscillators : List ℚ) : List ℚ :=
  if !hasAudioContext || isMuted then currentOscillators
  else stopChord currentOscillators ++ chordOscillators frequencies

/-- Detection config of the latch scenario: key C major, target degree 5
(expected pitch class G). -/
def latchConfig : DetectionConfig :=
  { selectedKey := "C"
    currentScaleDegree := { degree := 5, direction := some Direction.ABOVE }
    mode := Mode.major }

/-- A G held for 200 ms (confirmed, correct), then an A held for 200 ms
(confirmed, incorrect). -/
def latchFrames : List (Option String × Int) :=
  [(some "G", 1000), (some "G", 1200), (some "A", 1400), (some "A", 1600)]

/-- A G held for 200 ms (confirmed, correct), then loss of signal. -/
def signalLossFrames : List (Option String × Int) :=
  [(some "G", 1000), (some "G", 1200), (none, 1400)]

/-- Start a session, confirm a correct note on the first (and only) target,
stop, then toggle mute while stopped. -/
def doubleRecordEvents : List SessionEvent :=
  [SessionEvent.playClick true { degree := 3, direction := some Direction.ABOVE },
   SessionEvent.noteConfirmed true,
   SessionEvent.playClick true { degree := 5, direction := some Direction.BELOW },
   SessionEvent.muteToggle { degree := 2, direction := some Direction.ABOVE }]

/-! ## Helper lemmas -/

theorem sameCombination_some_false_iff (p sd : ScaleDegree) :
    sameCombination (some p) sd = false ↔
      ¬(sd.degree = p.degree ∧ sd.direction = p.direction) := by
  simp [sameCombination]

theorem drawScaleDegree_zero : drawScaleDegree 0 0 = { degree := 1, direction := none } := by
  have h : (⌊(0 : ℚ) * 7⌋ : Int) + 1 = 1 := by norm_num
  simp only [drawScaleDegree, degreeOneVariant, h]
  norm_num

theorem drawScaleDegree_half :
    drawScaleDegree (1/2) 0 = { degree := 4, direction := some Direction.ABOVE } := by
  have h : (⌊(1/2 : ℚ) * 7⌋ : Int) + 1 = 4 := by norm_num
  simp only [drawScaleDegree, degreeOneVariant, h]
  norm_num

/-! ## C1: a returned draw is never structurally identical to the previous one -/

/-- C1: whenever the generator's loop returns a `ScaleDegree`, that result is
never structurally identical to the previous combination — for any previous
value (including none), it never has both the same degree and the same
direction. -/
theorem generateNewScaleDegree_ne_previous (last : Option ScaleDegree) (stream : Nat → ℚ × ℚ)
    (i fuel : Nat) (sd : ScaleDegree)
    (h : generateNewScaleDegree last stream i fuel = some sd) :
    sameCombination last sd = false ∧
      ∀ p, last = some p → ¬(sd.degree = p.degree ∧ sd.direction = p.direction) := by
  induction fuel generalizing i with
  | zero => exact absurd h (by simp [generateNewScaleDegree])
  | succ fuel ih =>
    rw [generateNewScaleDegree] at h
    by_cases hc : sameCombination last (drawScaleDegree (stream i).1 (stream i).2) = true
    · rw [if_pos hc] at h
      exact ih (i + 1) h
    · rw [if_neg hc] at h
      obtain rfl : drawScaleDegree (stream i).1 (stream i).2 = sd := Option.some.inj h
      refine ⟨Bool.eq_false_iff.mpr hc, fun p hp => ?_⟩
      subst hp
      exact (sameCombination_some_false_iff p _).mp (Bool.eq_false_iff.mpr hc)

/-- Witness for C1 at a concrete previous combination, stream and fuel. -/
theorem generateNewScaleDegree_ne_previous_witness :
    sameCombination (some { degree := 1, direction := none })
        { degree := 4, direction := some Direction.ABOVE } = false ∧
      ∀ p, (some { degree := 1, direction := none } : Option ScaleDegree) = some p →
        ¬(({ degree := 4, direction := some Direction.ABOVE } : ScaleDegree).degree = p.degree ∧
          ({ degree := 4, direction := some Direction.ABOVE } : ScaleDegree).direction =
            p.direction) :=
  generateNewScaleDegree_ne_previous (some { degree := 1, direction := none })
    (fun _ => (1/2, 0)) 0 1 { degree := 4, direction := some Direction.ABOVE }
    (by rw [generateNewScaleDegree]
        simp only [drawScaleDegree_half]
        decide)

/-! ## C6: the rejection loop has no retry cap -/

theorem generateNewScaleDegree_const_stream_none (i fuel : Nat) :
    generateNewScaleDegree (some { degree := 1, direction := none })
      (fun _ => ((0 : ℚ), (0 : ℚ))) i fuel = none := by
  induction fuel generalizing i with
  | zero => rfl
  | succ fuel ih =>
    rw [generateNewScaleDegree,
      if_pos (by simp only [drawScaleDegree_zero]; decide : sameCombination
        (some { degree := 1, direction := none })
        (drawScaleDegree ((fun _ : Nat => ((0 : ℚ), (0 : ℚ))) i).1
          ((fun _ : Nat => ((0 : ℚ), (0 : ℚ))) i).2) = true)]
    exact ih (i + 1)

/-- C6 counterexample: the source loop has no retry cap.  On the random stream
that always draws the plain tonic while the previous combination is the plain
tonic, no amount of fuel makes `generateNewScaleDegree` return: the draw is
never accepted, at retry 100 or any other. -/
theorem generateNewScaleDegree_no_retry_cap :
    ¬∃ fuel sd, generateNewScaleDegree (some { degree := 1, direction := none })
        (fun _ => ((0 : ℚ), (0 : ℚ))) 0 fuel = some sd := by
  rintro ⟨fuel, sd, h⟩
  rw [generateNewScaleDegree_const_stream_none 0 fuel] at h
  exact Option.noConfusion h

theorem generateNewScaleDegree_terminates_aux (last : Option ScaleDegree)
    (stream : Nat → ℚ × ℚ) :
    ∀ n i, sameCombination last (drawScaleDegree (stream (i + n)).1 (stream (i + n)).2) = false →
      ∃ fuel sd, generateNewScaleDegree last stream i fuel = some sd := by
  intro n
  induction n with
  | zero =>
    intro i h
    rw [Nat.add_zero] at h
    exact ⟨1, drawScaleDegree (stream i).1 (stream i).2,
      by rw [generateNewScaleDegree, if_neg (by rw [h]; exact Bool.false_ne_true)]⟩
  | succ n ih =>
    intro i h
    by_cases h0 : sameCombination last (drawScaleDegree (stream i).1 (stream i).2) = true
    · have heq : i + 1 + n = i + (n + 1) := by omega
      obtain ⟨fuel, sd, hgen⟩ := ih (i + 1) (by rw [heq]; exact h)
      exact ⟨fuel + 1, sd, by rw [generateNewScaleDegree, if_pos h0]; exact hgen⟩
    · exact ⟨1, drawScaleDegree (stream i).1 (stream i).2,
        by rw [generateNewScaleDegree, if_neg h0]⟩

/-- C6 amended: the rejection loop is unbounded (no retry cap), so it is not
a total function of the random stream; it does terminate on every stream that
eventually produces a combination different from the previous one, and any
accepted draw differs from the previous combination. -/
theorem generateNewScaleDegree_terminates_of_eventually_fresh (last : Option ScaleDegree)
    (stream : Nat → ℚ × ℚ) (i j : Nat) (hij : i ≤ j)
    (hfresh : sameCombination last (drawScaleDegree (stream j).1 (stream j).2) = false) :
    ∃ fuel sd, generateNewScaleDegree last stream i fuel = some sd := by
  obtain ⟨n, rfl⟩ := Nat.exists_eq_add_of_le hij
  exact generateNewScaleDegree_terminates_aux last stream n i hfresh

/-- Witness for the amended C6 on a stream whose first draw is already fresh. -/
theorem generateNewScaleDegree_terminates_witness :
    (0 ≤ 0 ∧
      sameCombination (some { degree := 1, direction := none })
        (drawScaleDegree ((fun _ : Nat => ((1 : ℚ)/2, (0 : ℚ))) 0).1
          ((fun _ : Nat => ((1 : ℚ)/2, (0 : ℚ))) 0).2) = false) ∧
      ∃ fuel sd, generateNewScaleDegree (some { degree := 1, direction := none })
        (fun _ : Nat => ((1 : ℚ)/2, (0 : ℚ))) 0 fuel = some sd :=
  ⟨⟨by decide, by simp only [drawScaleDegree_half]; decide⟩,
    generateNewScaleDegree_terminates_of_eventually_fresh
      (some { degree := 1, direction := none })
      (fun _ : Nat => ((1 : ℚ)/2, (0 : ℚ))) 0 0 (by decide)
      (by simp only [drawScaleDegree_half]; decide)⟩

/-! ## C7: the degree-1 sub-variant split -/

/-- C7 counterexample: the sample `0.33` lies below `1/3`, yet the code maps
it to tonic-above, so the plain-tonic preimage is `[0, 0.33)` — an interval of
measure `33/100`, not `1/3`. -/
theorem degreeOneVariant_not_equal_thirds :
    degreeOneVariant (33/100) = { degree := 1, direction := some Direction.ABOVE } ∧
      (33/100 : ℚ) < 1/3 := by
  constructor
  · simp only [degreeOneVariant]
    norm_num
  · norm_num

/-- C7 amended: for a uniform sample `r` in `[0,1)` the three sub-variant
preimages are the intervals `[0, 0.33)`, `[0.33, 0.66)` and `[0.66, 1)`, of
measures `33/100`, `33/100` and `34/100` — approximately but not exactly
equal thirds. -/
theorem degreeOneVariant_split_33_33_34 (r : ℚ) (h0 : 0 ≤ r) (h1 : r < 1) :
    (degreeOneVariant r = { degree := 1, direction := none } ↔ r < 33/100) ∧
      (degreeOneVariant r = { degree := 1, direction := some Direction.ABOVE } ↔
        33/100 ≤ r ∧ r < 66/100) ∧
      (degreeOneVariant r = { degree := 1, direction := some Direction.BELOW } ↔
        66/100 ≤ r) := by
  have e33 : (0.33 : ℚ) = 33/100 := by norm_num
  have e66 : (0.66 : ℚ) = 66/100 := by norm_num
  simp only [degreeOneVariant, e33, e66]
  split_ifs with ha hb
  · refine ⟨⟨fun _ => ha, fun _ => rfl⟩, ⟨fun h => ?_, fun h => ?_⟩, ⟨fun h => ?_, fun h => ?_⟩⟩
    · exact absurd h (by simp)
    · linarith [h.1]
    · exact absurd h (by simp)
    · linarith
  · refine ⟨⟨fun h => ?_, fun h => ?_⟩, ⟨fun _ => ⟨not_lt.mp ha, hb⟩, fun _ => rfl⟩,
      ⟨fun h => ?_, fun h => ?_⟩⟩
    · exact absurd h (by simp)
    · linarith [not_lt.mp ha]
    · exact absurd h (by simp)
    · linarith
  · refine ⟨⟨fun h => ?_, fun h => ?_⟩, ⟨fun h => ?_, fun h => ?_⟩,
      ⟨fun _ => not_lt.mp hb, fun _ => rfl⟩⟩
    · exact absurd h (by simp)
    · linarith [not_lt.mp ha]
    · exact absurd h (by simp)
    · linarith [h.2, not_lt.mp hb]

/-- Witness for the amended C7 at the concrete sample `1/2`. -/
theorem degreeOneVariant_split_witness :
    ((0 : ℚ) ≤ 1/2 ∧ (1/2 : ℚ) < 1) ∧
      ((degreeOneVariant (1/2) = { degree := 1, direction := none } ↔ (1/2 : ℚ) < 33/100) ∧
        (degreeOneVariant (1/2) = { degree := 1, direction := some Direction.ABOVE } ↔
          33/100 ≤ (1/2 : ℚ) ∧ (1/2 : ℚ) < 66/100) ∧
        (degreeOneVariant (1/2) = { degree := 1, direction := some Direction.BELOW } ↔
          66/100 ≤ (1/2 : ℚ))) :=
  ⟨⟨by norm_num, by norm_num⟩, degreeOneVariant_split_33_33_34 (1/2) (by norm_num) (by norm_num)⟩

/-! ## C8: interval 11 in minor mode is always labeled "7" -/

/-- C8: in minor mode, for every key the pitch class 11 semitones above the
key is labeled "7" by `noteToScaleDegree` (never "♭1"); in particular key A
with note G# yields "7". -/
theorem noteToScaleDegree_interval11_minor_is_seven :
    (∀ k : Fin 12,
        noteToScaleDegree (NOTE_NAMES.getD ((k.val + 11) % 12) "?") (KEYS.getD k.val "?")
          Mode.minor = "7") ∧
      noteToScaleDegree "G#" "A" Mode.minor = "7" ∧ "7" ≠ "♭1" := by
  refine ⟨?_, by decide, by decide⟩
  decide

/-! ## C9: microphone failure leaves the session untouched -/

/-- C9: when the microphone check fails on a Start click, the session state is
returned unchanged, the session does not enter the playing state, and the
failure is surfaced as the alert; no retry happens inside the handler. -/
theorem micFailure_leaves_state_unchanged (st : SessionState) (drawn : ScaleDegree)
    (h : st.isPlaying = false) :
    (sessionStep st (SessionEvent.playClick false drawn)).1 = st ∧
      ((sessionStep st (SessionEvent.playClick false drawn)).1).isPlaying = false ∧
      (sessionStep st (SessionEvent.playClick false drawn)).2 = true := by
  simp [sessionStep, h]

/-- Witness for C9 at the freshly mounted session state. -/
theorem micFailure_leaves_state_unchanged_witness :
    initialSessionState.isPlaying = false ∧
      ((sessionStep initialSessionState
            (SessionEvent.playClick false { degree := 2, direction := some Direction.BELOW })).1 =
          initialSessionState ∧
        ((sessionStep initialSessionState
              (SessionEvent.playClick false { degree := 2, direction := some Direction.BELOW })).1).isPlaying =
          false ∧
        (sessionStep initialSessionState
            (SessionEvent.playClick false { degree := 2, direction := some Direction.BELOW })).2 =
          true) :=
  ⟨by decide,
    micFailure_leaves_state_unchanged initialSessionState
      { degree := 2, direction := some Direction.BELOW } (by decide)⟩

/-! ## C10: frame property of a muted or context-less `playChord` -/

/-- C10: with no audio context or while muted, `playChord` returns before
doing anything, leaving the playing oscillators unchanged; every unmuted
render with a context first stops all currently playing oscillators
(`stopChord` leaves none playing) and ends up with exactly the new chord's
oscillators, independent of what was playing before. -/
theorem playChord_muted_frame_property (frequencies currentOscillators : List ℚ) :
    playChord true true frequencies currentOscillators = currentOscillators ∧
      playChord false true frequencies currentOscillators = currentOscillators ∧
      playChord false false frequencies currentOscillators = currentOscillators ∧
      playChord true false frequencies currentOscillators = chordOscillators frequencies ∧
      stopChord currentOscillators = [] :=
  ⟨rfl, rfl, rfl, rfl, rfl⟩

/-! ## C2: the "found correct" latch on `noteStatus` -/

/-- Supporting lemma: had `detectPitch` read the live value of
`hasFoundCorrect` (as the surrounding comments describe), a latched correct
status could never change within a degree. -/
theorem detectPitchFrameLive_latches (cfg : DetectionConfig) (st : DetectionState)
    (pitch : Option String) (t : Int) (h : st.hasFoundCorrect = true) :
    (detectPitchFrameLive cfg st pitch t).hasFoundCorrect = true ∧
      (detectPitchFrameLive cfg st pitch t).noteStatus = st.noteStatus := by
  cases pitch with
  | none =>
    cases hsome : st.currentDetectedNote with
    | none => simp [detectPitchFrameLive, detectPitchStep, h, hsome]
    | some x => simp [detectPitchFrameLive, detectPitchStep, h, hsome]
  | some note =>
    by_cases hsame : st.currentDetectedNote = some note
    · cases hst : st.noteDetectionStartTime with
      | none => simp [detectPitchFrameLive, detectPitchStep, h, hsame, hst]
      | some t0 =>
        by_cases hheld : t0 ≠ 0 ∧ t - t0 ≥ DETECTION_DURATION_MS
        · cases hfirst : st.hasDetectedFirstNote <;>
            simp [detectPitchFrameLive, detectPitchStep, h, hsame, hst, hheld, hfirst]
        · simp [detectPitchFrameLive, detectPitchStep, h, hsame, hst, hheld]
    · simp [detectPitchFrameLive, detectPitchStep, h, hsame]

/-- C2 evaluation at the failing input: with key C major and target degree 5,
holding G for 200 ms latches `noteStatus` to correct (and sets the live
`hasFoundCorrect`), but then holding the wrong note A for 200 ms flips
`noteStatus` to incorrect, and a later loss of signal resets it to pending —
the `useCallback` closure of `detectPitch` reads the stale initial `false` of
`hasFoundCorrect`, so the latch is not honoured. -/
theorem noteStatus_latch_violated_at_trace :
    (runDetection latchConfig initialDetectionState (latchFrames.take 2)).noteStatus =
        NoteStatus.correct ∧
      (runDetection latchConfig initialDetectionState (latchFrames.take 2)).hasFoundCorrect =
        true ∧
      (runDetection latchConfig initialDetectionState latchFrames).noteStatus =
        NoteStatus.incorrect ∧
      (runDetection latchConfig initialDetectionState latchFrames).hasFoundCorrect = true ∧
      (runDetection latchConfig initialDetectionState signalLossFrames).noteStatus =
        NoteStatus.pending := by
  decide

/-! ## C3: outcomes recorded more than once per degree -/

/-- C3 evaluation at the failing input: start a session, confirm one correct
note on the single target, stop (the stop path records the outcome once),
then toggle mute while stopped — the auto-randomization effect re-runs its
stop branch and appends the same degree's outcome a second time, while no new
scale degree was installed. -/
theorem results_double_record_at_trace :
    (runSession initialSessionState (doubleRecordEvents.take 3)).results = [true] ∧
      (runSession initialSessionState doubleRecordEvents).results = [true, true] ∧
      (runSession initialSessionState doubleRecordEvents).currentScaleDegree =
        (runSession initialSessionState (doubleRecordEvents.take 3)).currentScaleDegree := by
  decide

/-! ## C5: the autocorrelation search -/

theorem bestCorrelation_invariant (buffer : List ℚ) :
    ∀ (ps : List Nat) (acc : ℚ × Nat),
      acc.1 ≤ (bestCorrelation buffer ps acc).1 ∧
        (∀ p ∈ ps, correlationAt buffer p ≤ (bestCorrelation buffer ps acc).1) ∧
        (bestCorrelation buffer ps acc = acc ∨
          ((bestCorrelation buffer ps acc).2 ∈ ps ∧
            correlationAt buffer (bestCorrelation buffer ps acc).2 =
              (bestCorrelation buffer ps acc).1)) := by
  intro ps
  induction ps with
  | nil =>
    intro acc
    exact ⟨le_refl _, by simp, Or.inl rfl⟩
  | cons p rest ih =>
    rintro ⟨m, b⟩
    simp only [bestCorrelation]
    by_cases hc : m < correlationAt buffer p
    · rw [if_pos hc]
      obtain ⟨ih1, ih2, ih3⟩ := ih (correlationAt buffer p, p)
      refine ⟨le_trans (le_of_lt hc) ih1, ?_, ?_⟩
      · intro q hq
        rcases List.mem_cons.mp hq with rfl | hq
        · exact ih1
        · exact ih2 q hq
      · rcases ih3 with heq | ⟨hmem, hval⟩
        · rw [heq]
          exact Or.inr ⟨List.mem_cons_self p rest, rfl⟩
        · exact Or.inr ⟨List.mem_cons_of_mem p hmem, hval⟩
    · rw [if_neg hc]
      obtain ⟨ih1, ih2, ih3⟩ := ih (m, b)
      refine ⟨ih1, ?_, ?_⟩
      · intro q hq
        rcases List.mem_cons.mp hq with rfl | hq
        · exact le_trans (not_lt.mp hc) ih1
        · exact ih2 q hq
      · rcases ih3 with heq | ⟨hmem, hval⟩
        · exact Or.inl heq
        · exact Or.inr ⟨List.mem_cons_of_mem p hmem, hval⟩

/-- C5: `detectPitch` searches exactly the periods in
`[floor(sampleRate/800), floor(sampleRate/80))`; the tracked maximum bounds
the dot-product correlation of every candidate period; whenever the maximum
exceeds the fixed `0.001` threshold, the best period lies in the searched
range, attains the maximum, and the reported frequency is
`sampleRate / bestPeriod`; otherwise no pitch is reported. -/
theorem detectPitch_reports_max_correlation (buffer : List ℚ) (sampleRate : Nat)
    (h800 : 800 ≤ sampleRate) :
    (∀ p, sampleRate / 800 ≤ p → p < sampleRate / 80 →
        correlationAt buffer p ≤ (autocorrelationSearch buffer sampleRate).1) ∧
      (0.001 < (autocorrelationSearch buffer sampleRate).1 →
        sampleRate / 800 ≤ (autocorrelationSearch buffer sampleRate).2 ∧
          (autocorrelationSearch buffer sampleRate).2 < sampleRate / 80 ∧
          correlationAt buffer (autocorrelationSearch buffer sampleRate).2 =
            (autocorrelationSearch buffer sampleRate).1 ∧
          detectPitchFrequency buffer sampleRate =
            some ((sampleRate : ℚ) / ((autocorrelationSearch buffer sampleRate).2 : ℚ))) ∧
      ((autocorrelationSearch buffer sampleRate).1 ≤ 0.001 →
        detectPitchFrequency buffer sampleRate = none) := by
  obtain ⟨_, h2, h3⟩ := bestCorrelation_invariant buffer
    (List.range' (sampleRate / 800) (sampleRate / 80 - sampleRate / 800)) (0, 0)
  have hsearch : autocorrelationSearch buffer sampleRate =
      bestCorrelation buffer
        (List.range' (sampleRate / 800) (sampleRate / 80 - sampleRate / 800)) (0, 0) := rfl
  refine ⟨?_, ?_, ?_⟩
  · intro p hp1 hp2
    rw [hsearch]
    refine h2 p ?_
    refine List.mem_range'.mpr ⟨p - sampleRate / 800, by omega, by omega⟩
  · intro hthr
    rcases h3 with heq | ⟨hmem, hval⟩
    · rw [hsearch, heq] at hthr
      norm_num at hthr
    · obtain ⟨i, hi, hpi⟩ := List.mem_range'.mp hmem
      have hbounds : sampleRate / 800 ≤ (autocorrelationSearch buffer sampleRate).2 ∧
          (autocorrelationSearch buffer sampleRate).2 < sampleRate / 80 := by
        rw [hsearch]
        omega
      have hminpos : 1 ≤ sampleRate / 800 :=
        (Nat.le_div_iff_mul_le (by norm_num)).mpr (by omega)
      refine ⟨hbounds.1, hbounds.2, by rw [hsearch]; exact hval, ?_⟩
      simp only [detectPitchFrequency]
      rw [if_pos ⟨hthr, by omega⟩]
  · intro hthr
    simp only [detectPitchFrequency]
    rw [if_neg]
    rintro ⟨hlt, -⟩
    exact absurd hlt (not_lt.mpr hthr)

/-- Witness for C5 on a concrete four-sample buffer at 800 Hz sampling. -/
theorem detectPitch_reports_max_correlation_witness :
    800 ≤ 800 ∧
      ((∀ p, 800 / 800 ≤ p → p < 800 / 80 →
          correlationAt [1, 1, 0, 0] p ≤ (autocorrelationSearch [1, 1, 0, 0] 800).1) ∧
        (0.001 < (autocorrelationSearch [1, 1, 0, 0] 800).1 →
          800 / 800 ≤ (autocorrelationSearch [1, 1, 0, 0] 800).2 ∧
            (autocorrelationSearch [1, 1, 0, 0] 800).2 < 800 / 80 ∧
            correlationAt [1, 1, 0, 0] (autocorrelationSearch [1, 1, 0, 0] 800).2 =
              (autocorrelationSearch [1, 1, 0, 0] 800).1 ∧
            detectPitchFrequency [1, 1, 0, 0] 800 =
              some ((800 : ℚ) / ((autocorrelationSearch [1, 1, 0, 0] 800).2 : ℚ))) ∧
        ((autocorrelationSearch [1, 1, 0, 0] 800).1 ≤ 0.001 →
          detectPitchFrequency [1, 1, 0, 0] 800 = none)) :=
  ⟨by norm_num, detectPitch_reports_max_correlation [1, 1, 0, 0] 800 (by norm_num)⟩

/-! ## C4: round-trip of exact frequencies through the classifiers -/

theorem tmod_neg_dividend (a b : Int) : Int.tmod (-a) b = -Int.tmod a b := by
  rw [Int.tmod_def, Int.tmod_def, Int.neg_tdiv]
  ring

theorem jsWrapIndex (pc k : Int) (h0 : 0 ≤ pc) (h1 : pc < 12) :
    (if (pc + 12 * k).tmod 12 < 0 then (pc + 12 * k).tmod 12 + 12
     else (pc + 12 * k).tmod 12) = pc := by
  rcases le_or_lt 0 (pc + 12 * k) with hpos | hneg
  · rw [Int.tmod_eq_emod hpos (by norm_num)]
    split_ifs <;> omega
  · have hneg2 : (0 : Int) ≤ -(pc + 12 * k) := by omega
    rw [show pc + 12 * k = -(-(pc + 12 * k)) by ring, tmod_neg_dividend,
      Int.tmod_eq_emod hneg2 (by norm_num)]
    split_ifs <;> omega

/-- Exactness core: a tone at `440 * 2 ^ ((pc - 9 + 12k) / 12)` Hz, for a
pitch-class index `pc` in `[0, 12)` and any octave offset `k`, classifies to
`NOTE_NAMES[pc]`. -/
theorem frequencyToNote_exact (pc k : Int) (h0 : 0 ≤ pc) (h1 : pc < 12) :
    frequencyToNote (440 * (2 : ℝ) ^ (((pc : ℝ) - 9 + 12 * (k : ℝ)) / 12)) =
      NOTE_NAMES.getD pc.toNat "?" := by
  have hpos : (0 : ℝ) < 440 * (2 : ℝ) ^ (((pc : ℝ) - 9 + 12 * (k : ℝ)) / 12) := by
    positivity
  have hdiv : 440 * (2 : ℝ) ^ (((pc : ℝ) - 9 + 12 * (k : ℝ)) / 12) / 440 =
      (2 : ℝ) ^ (((pc : ℝ) - 9 + 12 * (k : ℝ)) / 12) := by
    rw [mul_div_cancel_left₀]
    norm_num
  have hlog : Real.logb 2 ((2 : ℝ) ^ (((pc : ℝ) - 9 + 12 * (k : ℝ)) / 12)) =
      ((pc : ℝ) - 9 + 12 * (k : ℝ)) / 12 :=
    Real.logb_rpow (by norm_num) (by norm_num)
  have hmul : (12 : ℝ) * (((pc : ℝ) - 9 + 12 * (k : ℝ)) / 12) =
      ((pc - 9 + 12 * k : Int) : ℝ) := by
    push_cast
    ring
  simp only [frequencyToNote, not_le.mpr hpos, if_false, hdiv, hlog, hmul, round_intCast]
  rw [show (9 : Int) + (pc - 9 + 12 * k) = pc + 12 * k by ring, jsWrapIndex pc k h0 h1]

/-- C4: for every key, mode, degree 1..7 and octave offset `k`, the exact
equal-tempered frequency `440 * 2 ^ ((pcIndex - 9 + 12k) / 12)` of the
expected pitch class is mapped by `frequencyToNote` back to exactly the name
returned by `getExpectedNote`. -/
theorem frequencyToNote_getExpectedNote_roundTrip (keyName : String) (d : Int) (m : Mode)
    (k : Int) (hkey : keyName ∈ KEYS) (h1 : 1 ≤ d) (h7 : d ≤ 7) :
    frequencyToNote (440 * (2 : ℝ) ^
        (((expectedNoteIndex keyName d m : ℝ) - 9 + 12 * (k : ℝ)) / 12)) =
      getExpectedNote keyName d m := by
  have hb : 0 ≤ expectedNoteIndex keyName d m ∧ expectedNoteIndex keyName d m < 12 := by
    fin_cases hkey <;> interval_cases d <;> cases m <;> decide
  exact frequencyToNote_exact _ k hb.1 hb.2

/-- Witness for C4: key C major, degree 5 (pitch class G), octave offset 0. -/
theorem frequencyToNote_getExpectedNote_roundTrip_witness :
    ("C" ∈ KEYS ∧ (1 : Int) ≤ 5 ∧ (5 : Int) ≤ 7) ∧
      frequencyToNote (440 * (2 : ℝ) ^
          (((expectedNoteIndex "C" 5 Mode.major : ℝ) - 9 + 12 * ((0 : Int) : ℝ)) / 12)) =
        getExpectedNote "C" 5 Mode.major :=
  ⟨⟨by decide, by norm_num, by norm_num⟩,
    frequencyToNote_getExpectedNote_roundTrip "C" 5 Mode.major 0 (by decide) (by norm_num)
      (by norm_num)⟩

end ScaleDegreeRandomizer
